import Mathlib

set_option maxHeartbeats 1000000

/-!
Shallow embedding of the AP-EAMCET rank-predictor script (`src/rank.py`).

The program is a single-pass Streamlit app.  The logic the claims are about
lives in `get_rank_columns` (rank.py:20-21) and the submit branch of `main`
(rank.py:161-203):

  * validate the rank text input (`not selected_rank or not
    selected_rank.strip().isdigit()` → error and return),
  * `df[caste_gender] = df[caste_gender].replace(r'^\s*$', np.nan, regex=True)`
    (mutates the loaded table in place before the copy),
  * `filtered_df = df.copy()`,
  * three optional `.isin` categorical filters (branch_code / DIST / A_REG),
  * `pd.to_numeric(..., errors='coerce')` on the chosen rank column, then
    `dropna` on that column,
  * window filter `lower = max(0, rank - 20000)`, `upper = rank + 30000`,
    keep rows with `lower <= v <= upper` (both comparisons inclusive),
  * column projection to `show_cols` (keeping only columns present),
  * `sort_values(by=caste_gender)` (ascending),
  * `st.warning` ("no colleges found") when the result is empty, otherwise
    `st.success` plus a download button for the generated PDF.

A dataframe is modelled as a list of column names plus rows that are
association lists from column name to cell.  A cell is missing (`NaN`),
a raw string, or a number.  Ranks in the source data are integers, so the
numeric coercion (`pd.to_numeric`) is modelled as parsing an optionally
signed decimal-digit string to `Int`; Python's `str.isdigit` and
`str.strip` are modelled over ASCII digits / whitespace, which covers
every input the claims mention.
-/

namespace RankApp

/-- A dataframe cell: missing (`NaN`), a raw string, or a numeric value. -/
inductive Cell where
  | na : Cell
  | str (s : String) : Cell
  | int (n : Int) : Cell
deriving DecidableEq, Repr

/-- A dataframe row: an association list from column name to cell. -/
abbrev Row := List (String × Cell)

/-- `row[col]`: the cell of a row at a column name (missing → `NaN`). -/
def getCell (r : Row) (c : String) : Cell := (r.lookup c).getD Cell.na

/-- An in-memory dataframe: the column names and the rows. -/
structure Table where
  cols : List String
  rows : List Row
deriving DecidableEq, Repr

/-- Dataframe well-formedness: every row has exactly the table's columns,
in order (true of every pandas dataframe). -/
def Table.WF (t : Table) : Prop := ∀ r ∈ t.rows, r.map Prod.fst = t.cols

instance (t : Table) : Decidable t.WF := by
  unfold Table.WF; infer_instance

/-- The user's query, as read from the form widgets (rank.py:146-156):
the chosen rank column, the raw rank text, and the three multiselects. -/
structure Criteria where
  col : String
  rankInput : String
  branches : List String
  dists : List String
  regions : List String
deriving DecidableEq, Repr

/-! ### String helpers (Python semantics, over `List Char`) -/

/-- `a` occurs as a contiguous prefix of `b` (helper for substring tests). -/
def charsPrefixOf : List Char → List Char → Bool
  | [], _ => true
  | _ :: _, [] => false
  | a :: as, b :: bs => a == b && charsPrefixOf as bs

/-- Python's `x in s` on strings: `pat` occurs contiguously inside `s`. -/
def charsInfixOf (pat : List Char) : List Char → Bool
  | [] => charsPrefixOf pat []
  | c :: rest => charsPrefixOf pat (c :: rest) || charsInfixOf pat rest

/-- Python's `pat in s` substring test. -/
def strContains (pat s : String) : Bool := charsInfixOf pat.toList s.toList

/-- Python's `str.strip()`: drop leading and trailing whitespace. -/
def pyStrip (s : String) : String :=
  String.mk (((s.toList.dropWhile Char.isWhitespace).reverse.dropWhile
      Char.isWhitespace).reverse)

/-- Python's `str.isdigit()` (ASCII digits): nonempty and all digits. -/
def pyIsdigit (s : String) : Bool :=
  !s.toList.isEmpty && s.toList.all Char.isDigit

/-- Value of a decimal digit string (Python `int(...)` on a digit string). -/
def digitsToNat (l : List Char) : Nat :=
  l.foldl (fun acc ch => acc * 10 + (ch.toNat - 48)) 0

/-! ### Rank-column detection (rank.py:20-21) -/

/-- rank.py:20-21 — `[col for col in df.columns if any(x in col for x in
['_BOYS', '_GIRLS'])]`. -/
def get_rank_columns (cols : List String) : List String :=
  cols.filter (fun col => ["_BOYS", "_GIRLS"].any (fun x => strContains x col))

/-! ### Rank-input validation (rank.py:162-166) -/

/-- rank.py:162-166 — `if not selected_rank or not
selected_rank.strip().isdigit(): st.error(...); return` else
`rank = int(selected_rank.strip())`.  `none` means the validation error
was shown and the submit handler returned without filtering. -/
def validateRank (input : String) : Option Nat :=
  if input = "" || !pyIsdigit (pyStrip input) then none
  else some (digitsToNat (pyStrip input).toList)

/-! ### Cell-level operations (rank.py:167, 177) -/

/-- The regex `^\s*$`: empty or whitespace-only string. -/
def isBlankStr (s : String) : Bool := s.toList.all Char.isWhitespace

/-- rank.py:167 — `.replace(r'^\s*$', np.nan, regex=True)` on one cell:
a blank string becomes `NaN`; every other cell is unchanged. -/
def replaceBlankCell (c : Cell) : Cell :=
  match c with
  | .str s => if isBlankStr s then .na else .str s
  | c => c

/-- `pd.to_numeric` string parsing (integer-valued data): optional
surrounding whitespace, optional sign, then one or more digits. -/
def parseNumStr (s : String) : Option Int :=
  match (pyStrip s).toList with
  | [] => none
  | '-' :: rest =>
      if !rest.isEmpty && rest.all Char.isDigit then some (-(digitsToNat rest : Int))
      else none
  | '+' :: rest =>
      if !rest.isEmpty && rest.all Char.isDigit then some (digitsToNat rest : Int)
      else none
  | l => if l.all Char.isDigit then some (digitsToNat l : Int) else none

/-- rank.py:177 — `pd.to_numeric(..., errors='coerce')` on one cell:
a string that parses becomes numeric, one that does not becomes `NaN`. -/
def toNumericCell (c : Cell) : Cell :=
  match c with
  | .na => .na
  | .int n => .int n
  | .str s =>
      match parseNumStr s with
      | some n => .int n
      | none => .na

/-- `df[col] = f(df[col])` on one row: apply `f` to the cell at `col`. -/
def setCol (col : String) (f : Cell → Cell) (r : Row) : Row :=
  r.map (fun p => if p.1 = col then (p.1, f p.2) else p)

/-! ### The filter pipeline (rank.py:167-189) -/

/-- rank.py:167 — replace blank cells of the chosen column with `NaN`,
in place, on the loaded table (this runs before `df.copy()`). -/
def applyBlankReplace (t : Table) (col : String) : Table :=
  { t with rows := t.rows.map (setCol col replaceBlankCell) }

/-- `series.isin(sel)` on one cell: a string cell that is a member of the
selection; `NaN` and numeric cells never match a string selection. -/
def cellIn (c : Cell) (sel : List String) : Bool :=
  match c with
  | .str s => sel.contains s
  | _ => false

/-- rank.py:170-175 — one optional categorical filter: an empty selection
imposes no constraint, a nonempty one keeps the member rows. -/
def catFilter (col : String) (sel : List String) (rows : List Row) : List Row :=
  if sel.isEmpty then rows else rows.filter (fun r => cellIn (getCell r col) sel)

/-- rank.py:170-175 — the three categorical filters, applied in code order. -/
def afterCat (t : Table) (c : Criteria) : List Row :=
  catFilter "A_REG" c.regions
    (catFilter "DIST" c.dists
      (catFilter "branch_code" c.branches t.rows))

/-- rank.py:177 — numeric coercion of the chosen column. -/
def afterCoerce (t : Table) (c : Criteria) : List Row :=
  (afterCat t c).map (setCol c.col toNumericCell)

/-- `True` exactly when the cell is numeric (survives `dropna`). -/
def isNumericCell (c : Cell) : Bool :=
  match c with
  | .int _ => true
  | _ => false

/-- rank.py:178 — `dropna(subset=[caste_gender])`. -/
def afterDrop (t : Table) (c : Criteria) : List Row :=
  (afterCoerce t c).filter (fun r => isNumericCell (getCell r c.col))

/-- rank.py:180 — `lower = max(0, rank - 20000)`. -/
def lowerBound (rank : Nat) : Int := max 0 ((rank : Int) - 20000)

/-- rank.py:181 — `upper = rank + 30000`. -/
def upperBound (rank : Nat) : Int := (rank : Int) + 30000

/-- rank.py:182 — the inclusive tolerance window test on a value. -/
def inWindow (rank : Nat) (v : Int) : Bool :=
  lowerBound rank ≤ v && v ≤ upperBound rank

/-- rank.py:182 — the window test on a cell (`NaN >= lower` is `False`). -/
def cellInWindow (rank : Nat) (c : Cell) : Bool :=
  match c with
  | .int v => inWindow rank v
  | _ => false

/-- rank.py:182 — the rows kept by the window filter. -/
def keptRows (t : Table) (c : Criteria) (rank : Nat) : List Row :=
  (afterDrop t c).filter (fun r => cellInWindow rank (getCell r c.col))

/-- rank.py:184-187 — the fixed display schema `show_cols`. -/
def showCols (chosen : String) : List String :=
  ["INSTCODE", "NAME OF THE INSTITUTION", "INST_REG", "DIST", "A_REG",
   "branch_code", "PLACE", chosen, "COLLFEE"]

/-- rank.py:188 — `[col for col in show_cols if col in result_df.columns]`
(filtering leaves the column set unchanged, so these are the table's
columns). -/
def projCols (t : Table) (c : Criteria) : List String :=
  (showCols c.col).filter (fun col => t.cols.contains col)

/-- rank.py:188 — project one row to the listed columns, in that order. -/
def projectRow (cols : List String) (r : Row) : Row :=
  cols.filterMap (fun c => (r.lookup c).map (fun v => (c, v)))

/-- The numeric sort key `sort_values(by=caste_gender)` uses; after
`dropna` every sorted cell is numeric, so the default for the impossible
non-numeric case is immaterial. -/
def rankValue (col : String) (r : Row) : Int :=
  match getCell r col with
  | .int v => v
  | _ => 0

/-- Ascending comparison on the chosen column's value. -/
def rowLe (col : String) (a b : Row) : Prop := rankValue col a ≤ rankValue col b

instance (col : String) : DecidableRel (rowLe col) := by
  unfold rowLe; infer_instance

/-- rank.py:189 — `sort_values(by=caste_gender)`, ascending.  Pandas'
default sort is not stable, so only the ascending order and the multiset
of rows are specified; a sort producing an ascending permutation models
it. -/
def sortByRank (col : String) (rows : List Row) : List Row :=
  rows.insertionSort (rowLe col)

/-- rank.py:167-189 — the full result set of one submitted query with an
accepted rank: categorical filters, coercion, `dropna`, window filter,
projection, ascending sort.  The pipeline runs on the blank-replaced
table, exactly as the in-place line 167 assignment makes it. -/
def resultRows (t : Table) (c : Criteria) (rank : Nat) : List Row :=
  sortByRank c.col
    ((keptRows (applyBlankReplace t c.col) c rank).map (projectRow (projCols t c)))

/-! ### The submit handler's observable outcome (rank.py:161-203) -/

/-- What the submit branch shows: the validation error (rank.py:163), the
neutral "no colleges found" warning (rank.py:203), or the success banner
with the result dataframe and the PDF download button (rank.py:192-201). -/
inductive Outcome where
  | invalidRank : Outcome
  | noMatches : Outcome
  | found (rows : List Row) : Outcome
deriving DecidableEq, Repr

/-- rank.py:196-201 — the download button exists only in the success
branch. -/
def downloadOffered : Outcome → Bool
  | .found _ => true
  | _ => false

/-- rank.py:163 — `st.error` is shown only for an invalid rank; the empty
result uses `st.warning`, a neutral message. -/
def errorShown : Outcome → Bool
  | .invalidRank => true
  | _ => false

/-- rank.py:161-203 — one submitted query: the table state after the run
(line 167 mutates the loaded table when the rank is accepted) and the
outcome shown to the user. -/
def runQuery (t : Table) (c : Criteria) : Table × Outcome :=
  match validateRank c.rankInput with
  | none => (t, .invalidRank)
  | some rank =>
      let res := resultRows t c rank
      (applyBlankReplace t c.col, if res.isEmpty then .noMatches else .found res)

end RankApp

namespace RankApp

/-! ### Helper lemmas about the embedding -/

theorem lookup_setCol_self (col : String) (f : Cell → Cell) (r : Row) :
    (setCol col f r).lookup col = (r.lookup col).map f := by
  induction r with
  | nil => simp [setCol]
  | cons p r ih =>
    obtain ⟨k, v⟩ := p
    by_cases hk : k = col
    · subst hk
      simp [setCol, List.lookup_cons]
    · simp only [setCol, List.map_cons, if_neg hk] at ih ⊢
      rw [List.lookup_cons, List.lookup_cons]
      split <;> rename_i heq
      · simp only [beq_iff_eq] at heq
        exact absurd heq.symm hk
      · exact ih

theorem lookup_setCol_ne (col col' : String) (f : Cell → Cell) (r : Row)
    (h : col' ≠ col) : (setCol col f r).lookup col' = r.lookup col' := by
  induction r with
  | nil => simp [setCol]
  | cons p r ih =>
    obtain ⟨k, v⟩ := p
    by_cases hk : k = col
    · subst hk
      simp only [setCol, List.map_cons, if_pos rfl] at ih ⊢
      rw [List.lookup_cons, List.lookup_cons]
      split <;> rename_i heq
      · simp [beq_iff_eq] at heq
        exact absurd heq h
      · split <;> rename_i heq2
        · simp [beq_iff_eq] at heq2
          exact absurd heq2 h
        · exact ih
    · simp only [setCol, List.map_cons, if_neg hk] at ih ⊢
      rw [List.lookup_cons, List.lookup_cons]
      split <;> rename_i heq
      · rfl
      · exact ih

theorem getCell_setCol_ne (col col' : String) (f : Cell → Cell) (r : Row)
    (h : col' ≠ col) : getCell (setCol col f r) col' = getCell r col' := by
  simp [getCell, lookup_setCol_ne col col' f r h]

theorem getCell_setCol_self (col : String) (f : Cell → Cell) (r : Row) :
    getCell (setCol col f r) col = ((r.lookup col).map f).getD Cell.na := by
  simp [getCell, lookup_setCol_self]

theorem keys_setCol (col : String) (f : Cell → Cell) (r : Row) :
    (setCol col f r).map Prod.fst = r.map Prod.fst := by
  unfold setCol
  rw [List.map_map]
  apply List.map_congr_left
  intro p _
  by_cases h : p.1 = col <;> simp [h]

theorem mem_keys_of_lookup {r : Row} {c : String} {v : Cell}
    (h : r.lookup c = some v) : c ∈ r.map Prod.fst := by
  induction r with
  | nil => simp [List.lookup] at h
  | cons p r ih =>
    obtain ⟨k, b⟩ := p
    rw [List.lookup_cons] at h
    simp only [List.map_cons, List.mem_cons]
    revert h
    split <;> rename_i heq
    · intro _
      simp only [beq_iff_eq] at heq
      exact Or.inl heq
    · intro h
      exact Or.inr (ih h)

theorem lookup_projectRow (cols : List String) (r : Row) (c : String) :
    (projectRow cols r).lookup c = if c ∈ cols then r.lookup c else none := by
  induction cols with
  | nil => simp [projectRow]
  | cons x cols ih =>
    show (List.filterMap _ (x :: cols)).lookup c = _
    rw [List.filterMap_cons]
    cases hx : r.lookup x with
    | none =>
      show (projectRow cols r).lookup c = _
      rw [ih]
      by_cases hcx : c = x
      · subst hcx
        by_cases hm : c ∈ cols <;> simp [hm, hx]
      · by_cases hm : c ∈ cols <;> simp [hm, hcx]
    | some v =>
      show List.lookup c ((x, v) :: projectRow cols r) = _
      rw [List.lookup_cons]
      split <;> rename_i heq
      · simp only [beq_iff_eq] at heq
        subst heq
        simp [hx]
      · rw [beq_eq_false_iff_ne] at heq
        show (projectRow cols r).lookup c = _
        rw [ih]
        by_cases hm : c ∈ cols <;> simp [hm, heq]

theorem getCell_projectRow (cols : List String) (r : Row) (c : String)
    (h : c ∈ cols) : getCell (projectRow cols r) c = getCell r c := by
  simp [getCell, lookup_projectRow, h]

theorem mem_of_mem_catFilter {col : String} {sel : List String}
    {rows : List Row} {r : Row} (h : r ∈ catFilter col sel rows) :
    r ∈ rows ∧ (sel ≠ [] → cellIn (getCell r col) sel = true) := by
  unfold catFilter at h
  split at h <;> rename_i hs
  · exact ⟨h, fun hne => absurd (List.isEmpty_iff.mp hs) hne⟩
  · rw [List.mem_filter] at h
    exact ⟨h.1, fun _ => h.2⟩

theorem cellIn_true {c : Cell} {sel : List String}
    (h : cellIn c sel = true) : ∃ s, c = .str s ∧ s ∈ sel := by
  cases c with
  | na => exact Bool.noConfusion h
  | int n => exact Bool.noConfusion h
  | str s =>
    refine ⟨s, rfl, ?_⟩
    simpa [cellIn] using h

theorem mem_afterCat {t : Table} {c : Criteria} {r : Row}
    (h : r ∈ afterCat t c) :
    r ∈ t.rows ∧
    (c.branches ≠ [] → cellIn (getCell r "branch_code") c.branches = true) ∧
    (c.dists ≠ [] → cellIn (getCell r "DIST") c.dists = true) ∧
    (c.regions ≠ [] → cellIn (getCell r "A_REG") c.regions = true) := by
  unfold afterCat at h
  obtain ⟨h2, hreg⟩ := mem_of_mem_catFilter h
  obtain ⟨h1, hdist⟩ := mem_of_mem_catFilter h2
  obtain ⟨h0, hbr⟩ := mem_of_mem_catFilter h1
  exact ⟨h0, hbr, hdist, hreg⟩

theorem mem_afterDrop {t : Table} {c : Criteria} {r : Row}
    (h : r ∈ afterDrop t c) :
    ∃ r2 ∈ afterCat t c, r = setCol c.col toNumericCell r2 ∧
      ∃ v : Int, getCell r c.col = .int v := by
  unfold afterDrop afterCoerce at h
  rw [List.mem_filter] at h
  obtain ⟨hm, hnum⟩ := h
  rw [List.mem_map] at hm
  obtain ⟨r2, hr2, rfl⟩ := hm
  refine ⟨r2, hr2, rfl, ?_⟩
  cases hcell : getCell (setCol c.col toNumericCell r2) c.col with
  | int v => exact ⟨v, rfl⟩
  | na => rw [hcell] at hnum; exact Bool.noConfusion hnum
  | str s => rw [hcell] at hnum; exact Bool.noConfusion hnum

theorem cellInWindow_true {rank : Nat} {cell : Cell}
    (h : cellInWindow rank cell = true) :
    ∃ v : Int, cell = .int v ∧ lowerBound rank ≤ v ∧ v ≤ upperBound rank := by
  cases cell with
  | na => exact Bool.noConfusion h
  | str s => exact Bool.noConfusion h
  | int v =>
    refine ⟨v, rfl, ?_⟩
    simpa [cellInWindow, inWindow, Bool.and_eq_true, decide_eq_true_eq] using h

theorem keys_of_mem_blankReplace {t : Table} {col : String} {r : Row}
    (hwf : t.WF) (h : r ∈ (applyBlankReplace t col).rows) :
    r.map Prod.fst = t.cols := by
  unfold applyBlankReplace at h
  simp only [List.mem_map] at h
  obtain ⟨r0, hr0, rfl⟩ := h
  rw [keys_setCol]
  exact hwf r0 hr0

theorem lookup_eq_some_of_getCell {r : Row} {c : String} {cell : Cell}
    (h : getCell r c = cell) (hne : cell ≠ Cell.na) :
    r.lookup c = some cell := by
  unfold getCell at h
  cases hl : r.lookup c with
  | none => rw [hl] at h; exact absurd h.symm hne
  | some v => rw [hl] at h; rw [Option.getD_some] at h; rw [h]

theorem rank_col_ne {col : String} {cols : List String}
    (hcol : col ∈ get_rank_columns cols) :
    col ≠ "branch_code" ∧ col ≠ "DIST" ∧ col ≠ "A_REG" := by
  rw [get_rank_columns, List.mem_filter] at hcol
  obtain ⟨-, h⟩ := hcol
  refine ⟨?_, ?_, ?_⟩ <;> rintro rfl <;> revert h <;> decide

theorem mem_cols_of_rank_col {col : String} {cols : List String}
    (hcol : col ∈ get_rank_columns cols) : col ∈ cols :=
  (List.mem_filter.mp hcol).1

theorem mem_projCols {t : Table} {c : Criteria} {col : String} :
    col ∈ projCols t c ↔ col ∈ showCols c.col ∧ col ∈ t.cols := by
  unfold projCols
  rw [List.mem_filter]
  simp

/-- The facts true of every row of the final result set: each nonempty
categorical selection is satisfied, and the chosen rank column holds a
numeric value inside the inclusive tolerance window. -/
theorem resultRows_facts {t : Table} {c : Criteria} {rank : Nat}
    (hwf : t.WF) (hcol : c.col ∈ get_rank_columns t.cols) :
    ∀ r ∈ resultRows t c rank,
      (c.branches ≠ [] → ∃ s, getCell r "branch_code" = .str s ∧ s ∈ c.branches) ∧
      (c.dists ≠ [] → ∃ s, getCell r "DIST" = .str s ∧ s ∈ c.dists) ∧
      (c.regions ≠ [] → ∃ s, getCell r "A_REG" = .str s ∧ s ∈ c.regions) ∧
      (∃ v : Int, getCell r c.col = .int v ∧
        lowerBound rank ≤ v ∧ v ≤ upperBound rank) := by
  intro r hr
  obtain ⟨hne_bc, hne_d, hne_r⟩ := rank_col_ne hcol
  unfold resultRows sortByRank at hr
  rw [List.mem_insertionSort, List.mem_map] at hr
  obtain ⟨r1, hr1, rfl⟩ := hr
  unfold keptRows at hr1
  rw [List.mem_filter] at hr1
  obtain ⟨hdrop, hwin⟩ := hr1
  obtain ⟨v, hcell1, hlo, hhi⟩ := cellInWindow_true hwin
  obtain ⟨r2, hr2cat, hr1eq, -⟩ := mem_afterDrop hdrop
  obtain ⟨hr2rows, hbr, hdist, hreg⟩ := mem_afterCat hr2cat
  have hkeys2 : r2.map Prod.fst = t.cols := keys_of_mem_blankReplace hwf hr2rows
  have hccol : c.col ∈ t.cols := mem_cols_of_rank_col hcol
  have hccol_proj : c.col ∈ projCols t c := by
    rw [mem_projCols]
    exact ⟨by simp [showCols], hccol⟩
  refine ⟨?_, ?_, ?_, ?_⟩
  · intro hb
    obtain ⟨s, hs, hmem⟩ := cellIn_true (hbr hb)
    refine ⟨s, ?_, hmem⟩
    have hbc_cols : "branch_code" ∈ t.cols := by
      rw [← hkeys2]
      exact mem_keys_of_lookup (lookup_eq_some_of_getCell hs (by simp))
    rw [getCell_projectRow _ _ _ (mem_projCols.mpr ⟨by simp [showCols], hbc_cols⟩)]
    rw [hr1eq, getCell_setCol_ne _ _ _ _ (fun hh => hne_bc hh.symm)]
    exact hs
  · intro hb
    obtain ⟨s, hs, hmem⟩ := cellIn_true (hdist hb)
    refine ⟨s, ?_, hmem⟩
    have hd_cols : "DIST" ∈ t.cols := by
      rw [← hkeys2]
      exact mem_keys_of_lookup (lookup_eq_some_of_getCell hs (by simp))
    rw [getCell_projectRow _ _ _ (mem_projCols.mpr ⟨by simp [showCols], hd_cols⟩)]
    rw [hr1eq, getCell_setCol_ne _ _ _ _ (fun hh => hne_d hh.symm)]
    exact hs
  · intro hb
    obtain ⟨s, hs, hmem⟩ := cellIn_true (hreg hb)
    refine ⟨s, ?_, hmem⟩
    have hr_cols : "A_REG" ∈ t.cols := by
      rw [← hkeys2]
      exact mem_keys_of_lookup (lookup_eq_some_of_getCell hs (by simp))
    rw [getCell_projectRow _ _ _ (mem_projCols.mpr ⟨by simp [showCols], hr_cols⟩)]
    rw [hr1eq, getCell_setCol_ne _ _ _ _ (fun hh => hne_r hh.symm)]
    exact hs
  · refine ⟨v, ?_, hlo, hhi⟩
    rw [getCell_projectRow _ _ _ hccol_proj]
    exact hcell1

/-! ### Sample data (used by the concrete witnesses below) -/

/-- A small well-formed table in the source spreadsheet's schema. -/
def sampleTable : Table :=
  { cols := ["INSTCODE", "NAME OF THE INSTITUTION", "INST_REG", "DIST", "A_REG",
             "branch_code", "PLACE", "OC_BOYS", "COLLFEE"],
    rows := [
      [("INSTCODE", .str "A1"), ("NAME OF THE INSTITUTION", .str "Inst One"),
       ("INST_REG", .str "AU"), ("DIST", .str "GTR"), ("A_REG", .str "AU"),
       ("branch_code", .str "CSE"), ("PLACE", .str "P1"),
       ("OC_BOYS", .str "25000"), ("COLLFEE", .str "35000")],
      [("INSTCODE", .str "A2"), ("NAME OF THE INSTITUTION", .str "Inst Two"),
       ("INST_REG", .str "SVU"), ("DIST", .str "KNL"), ("A_REG", .str "SVU"),
       ("branch_code", .str "ECE"), ("PLACE", .str "P2"),
       ("OC_BOYS", .str " "), ("COLLFEE", .str "40000")],
      [("INSTCODE", .str "A3"), ("NAME OF THE INSTITUTION", .str "Inst Three"),
       ("INST_REG", .str "AU"), ("DIST", .str "GTR"), ("A_REG", .str "AU"),
       ("branch_code", .str "CSE"), ("PLACE", .str "P3"),
       ("OC_BOYS", .str "1000"), ("COLLFEE", .str "30000")],
      [("INSTCODE", .str "A4"), ("NAME OF THE INSTITUTION", .str "Inst Four"),
       ("INST_REG", .str "AU"), ("DIST", .str "GTR"), ("A_REG", .str "AU"),
       ("branch_code", .str "CSE"), ("PLACE", .str "P4"),
       ("OC_BOYS", .str "60000"), ("COLLFEE", .str "50000")],
      [("INSTCODE", .str "A5"), ("NAME OF THE INSTITUTION", .str "Inst Five"),
       ("INST_REG", .str "AU"), ("DIST", .str "GTR"), ("A_REG", .str "AU"),
       ("branch_code", .str "CSE"), ("PLACE", .str "P5"),
       ("OC_BOYS", .str "10000"), ("COLLFEE", .str "45000")]
    ] }

/-- A valid query against `sampleTable`: rank 30000, window [10000, 60000]. -/
def sampleCrit : Criteria :=
  { col := "OC_BOYS", rankInput := "30000",
    branches := ["CSE"], dists := ["GTR"], regions := ["AU"] }

/-- The first row of `resultRows sampleTable sampleCrit 30000` (the lower
boundary row, cutoff exactly 10000). -/
def sampleResRow : Row :=
  [("INSTCODE", .str "A5"), ("NAME OF THE INSTITUTION", .str "Inst Five"),
   ("INST_REG", .str "AU"), ("DIST", .str "GTR"), ("A_REG", .str "AU"),
   ("branch_code", .str "CSE"), ("PLACE", .str "P5"),
   ("OC_BOYS", .int 10000), ("COLLFEE", .str "45000")]

/-- The second sample row (blank `OC_BOYS` cell), uncoerced. -/
def sampleBlankRow : Row :=
  [("INSTCODE", .str "A2"), ("NAME OF THE INSTITUTION", .str "Inst Two"),
   ("INST_REG", .str "SVU"), ("DIST", .str "KNL"), ("A_REG", .str "SVU"),
   ("branch_code", .str "ECE"), ("PLACE", .str "P2"),
   ("OC_BOYS", .str " "), ("COLLFEE", .str "40000")]

/-- `sampleTable` with the blank `OC_BOYS` cell already normalized: no
blank string remains in the chosen rank column. -/
def cleanTable : Table :=
  { cols := sampleTable.cols,
    rows := [
      [("INSTCODE", .str "A1"), ("NAME OF THE INSTITUTION", .str "Inst One"),
       ("INST_REG", .str "AU"), ("DIST", .str "GTR"), ("A_REG", .str "AU"),
       ("branch_code", .str "CSE"), ("PLACE", .str "P1"),
       ("OC_BOYS", .str "25000"), ("COLLFEE", .str "35000")],
      [("INSTCODE", .str "A2"), ("NAME OF THE INSTITUTION", .str "Inst Two"),
       ("INST_REG", .str "SVU"), ("DIST", .str "KNL"), ("A_REG", .str "SVU"),
       ("branch_code", .str "ECE"), ("PLACE", .str "P2"),
       ("OC_BOYS", .na), ("COLLFEE", .str "40000")]
    ] }

/-! ### The claims -/

/-- C5: the rank-column selector returns exactly the table's column names
that contain the marker `_BOYS` or `_GIRLS` as a substring — a name is in
the returned list iff it is a column and contains a marker — and an empty
column list gives the (valid, error-free) empty result (rank.py:20-21). -/
theorem C5_rank_column_selector (cols : List String) (col : String) :
    get_rank_columns cols =
      cols.filter (fun c => strContains "_BOYS" c || strContains "_GIRLS" c) ∧
    (col ∈ get_rank_columns cols ↔
      col ∈ cols ∧ (strContains "_BOYS" col = true ∨ strContains "_GIRLS" col = true)) ∧
    get_rank_columns [] = [] := by
  refine ⟨?_, ?_, rfl⟩
  · unfold get_rank_columns
    apply List.filter_congr
    intro x _
    simp
  · rw [get_rank_columns, List.mem_filter]
    simp

/-- C2 counterexample: the rank input "0" is NOT rejected.  Python's
`"0".strip().isdigit()` is `True`, so rank.py:162 accepts it, parses it
to the integer 0, and filtering proceeds (here to a nonempty result). -/
theorem C2_counterexample :
    validateRank "0" = some 0 ∧
    (runQuery sampleTable { sampleCrit with rankInput := "0" }).2 ≠
      Outcome.invalidRank := by
  constructor
  · decide
  · decide

/-- C2 (amended): the inputs "abc", "" and "-5" are rejected before any
filtering — the handler returns with the validation message, the table
untouched; the inputs "0" and "30000" are accepted and parsed to 0 and
30000 respectively (rank.py:162-166). -/
theorem C2_rank_validation (t : Table) (c : Criteria)
    (h : validateRank c.rankInput = none) :
    runQuery t c = (t, Outcome.invalidRank) ∧
    validateRank "abc" = none ∧
    validateRank "" = none ∧
    validateRank "-5" = none ∧
    validateRank "0" = some 0 ∧
    validateRank "30000" = some 30000 := by
  refine ⟨?_, by decide, by decide, by decide, by decide, by decide⟩
  unfold runQuery
  rw [h]

/-- C2 witness: the rejection branch at the concrete input "abc". -/
theorem C2_rank_validation_witness :
    runQuery sampleTable { sampleCrit with rankInput := "abc" } =
      (sampleTable, Outcome.invalidRank) ∧
    validateRank "abc" = none ∧
    validateRank "" = none ∧
    validateRank "-5" = none ∧
    validateRank "0" = some 0 ∧
    validateRank "30000" = some 30000 :=
  C2_rank_validation sampleTable { sampleCrit with rankInput := "abc" } (by decide)

/-- C10: for an accepted positive target rank, a row surviving the
categorical filters and the numeric coercion is kept by the window filter
iff its value `v` satisfies `max 0 (rank - 20000) ≤ v ≤ rank + 30000`
(rank.py:180-182). -/
theorem C10_window_is_exact (t : Table) (c : Criteria) (rank : Nat)
    (r : Row) (v : Int) (hpos : 0 < rank)
    (hr : r ∈ afterDrop t c) (hv : getCell r c.col = .int v) :
    r ∈ keptRows t c rank ↔
      (max 0 ((rank : Int) - 20000) ≤ v ∧ v ≤ (rank : Int) + 30000) := by
  unfold keptRows
  rw [List.mem_filter]
  constructor
  · rintro ⟨-, hw⟩
    obtain ⟨v', hcell, hlo, hhi⟩ := cellInWindow_true hw
    rw [hv] at hcell
    cases hcell
    exact ⟨hlo, hhi⟩
  · rintro ⟨hlo, hhi⟩
    refine ⟨hr, ?_⟩
    rw [hv]
    simp only [cellInWindow, inWindow, lowerBound, upperBound,
      Bool.and_eq_true, decide_eq_true_eq]
    exact ⟨hlo, hhi⟩

/-- C10 witness: the boundary row (value 10000) at rank 30000. -/
theorem C10_window_is_exact_witness :
    0 < 30000 ∧
    (sampleResRow ∈ keptRows sampleTable sampleCrit 30000 ↔
      (max 0 ((30000 : Int) - 20000) ≤ (10000 : Int) ∧
        (10000 : Int) ≤ (30000 : Int) + 30000)) :=
  ⟨by decide,
   C10_window_is_exact sampleTable sampleCrit 30000 sampleResRow 10000
     (by decide) (by decide) (by decide)⟩

/-- C4: the window's bounds are inclusive — a row (past the categorical
and coercion steps) whose value is exactly the lower or upper bound is
kept by the window filter, and a value one unit outside either bound is
excluded (rank.py:180-182). -/
theorem C4_bounds_inclusive (t : Table) (c : Criteria) (rank : Nat)
    (r : Row) (hr : r ∈ afterDrop t c) :
    (getCell r c.col = .int (lowerBound rank) → r ∈ keptRows t c rank) ∧
    (getCell r c.col = .int (upperBound rank) → r ∈ keptRows t c rank) ∧
    (getCell r c.col = .int (lowerBound rank - 1) → r ∉ keptRows t c rank) ∧
    (getCell r c.col = .int (upperBound rank + 1) → r ∉ keptRows t c rank) := by
  have hbounds : lowerBound rank ≤ upperBound rank := by
    unfold lowerBound upperBound
    apply max_le <;> omega
  refine ⟨?_, ?_, ?_, ?_⟩
  · intro hv
    unfold keptRows
    rw [List.mem_filter]
    refine ⟨hr, ?_⟩
    rw [hv]
    simp only [cellInWindow, inWindow, Bool.and_eq_true, decide_eq_true_eq]
    exact ⟨le_refl _, hbounds⟩
  · intro hv
    unfold keptRows
    rw [List.mem_filter]
    refine ⟨hr, ?_⟩
    rw [hv]
    simp only [cellInWindow, inWindow, Bool.and_eq_true, decide_eq_true_eq]
    exact ⟨hbounds, le_refl _⟩
  · intro hv hmem
    unfold keptRows at hmem
    rw [List.mem_filter] at hmem
    obtain ⟨v', hcell, hlo, -⟩ := cellInWindow_true hmem.2
    rw [hv] at hcell
    cases hcell
    omega
  · intro hv hmem
    unfold keptRows at hmem
    rw [List.mem_filter] at hmem
    obtain ⟨v', hcell, -, hhi⟩ := cellInWindow_true hmem.2
    rw [hv] at hcell
    cases hcell
    omega

/-- C4 witness: at rank 30000 the boundary row with value exactly
`lowerBound 30000 = 10000` is kept. -/
theorem C4_bounds_inclusive_witness :
    getCell sampleResRow sampleCrit.col = .int (lowerBound 30000) ∧
    sampleResRow ∈ keptRows sampleTable sampleCrit 30000 :=
  ⟨by decide,
   (C4_bounds_inclusive sampleTable sampleCrit 30000 sampleResRow (by decide)).1
     (by decide)⟩


/-- C1: for a well-formed table and valid criteria (accepted positive
rank, chosen column among the detected rank columns), every row of the
result set satisfies each nonempty categorical constraint (its
branch_code / DIST / A_REG cell is a string belonging to the chosen set),
and holds a numeric value in the chosen rank column lying inside the
inclusive tolerance window; an empty selection imposes no constraint
(rank.py:161-189). -/
theorem C1_result_satisfies_criteria (t : Table) (c : Criteria) (rank : Nat)
    (hwf : t.WF) (hrank : validateRank c.rankInput = some rank)
    (hpos : 0 < rank) (hcol : c.col ∈ get_rank_columns t.cols) :
    ∀ r ∈ resultRows t c rank,
      (c.branches ≠ [] →
        ∃ s, getCell r "branch_code" = .str s ∧ s ∈ c.branches) ∧
      (c.dists ≠ [] → ∃ s, getCell r "DIST" = .str s ∧ s ∈ c.dists) ∧
      (c.regions ≠ [] → ∃ s, getCell r "A_REG" = .str s ∧ s ∈ c.regions) ∧
      (∃ v : Int, getCell r c.col = .int v ∧
        lowerBound rank ≤ v ∧ v ≤ upperBound rank) :=
  resultRows_facts hwf hcol

/-- C1 witness: the result row of institution A5 under the sample query. -/
theorem C1_result_satisfies_criteria_witness :
    (sampleCrit.branches ≠ [] →
      ∃ s, getCell sampleResRow "branch_code" = .str s ∧ s ∈ sampleCrit.branches) ∧
    (sampleCrit.dists ≠ [] →
      ∃ s, getCell sampleResRow "DIST" = .str s ∧ s ∈ sampleCrit.dists) ∧
    (sampleCrit.regions ≠ [] →
      ∃ s, getCell sampleResRow "A_REG" = .str s ∧ s ∈ sampleCrit.regions) ∧
    (∃ v : Int, getCell sampleResRow sampleCrit.col = .int v ∧
      lowerBound 30000 ≤ v ∧ v ≤ upperBound 30000) :=
  C1_result_satisfies_criteria sampleTable sampleCrit 30000
    (by decide) (by decide) (by decide) (by decide) sampleResRow (by decide)

/-- C3: a row whose chosen-rank-column cell does not coerce to a number
(blank, whitespace-only, or non-numeric) is dropped: every `dropna`
survivor carries a numeric cell, the coerced image of such a row is in
neither the `dropna` survivors nor the window result, a blank string is
normalized and coerced to absent (never to a number), and the only
strings coerced to 0 are those that literally parse as 0
(rank.py:167-178). -/
theorem C3_blank_never_matches (t : Table) (c : Criteria) (rank : Nat)
    (r : Row) (hnn : toNumericCell (getCell r c.col) = Cell.na) :
    (∀ r1 ∈ afterDrop t c, ∃ v : Int, getCell r1 c.col = .int v) ∧
    setCol c.col toNumericCell r ∉ afterDrop t c ∧
    setCol c.col toNumericCell r ∉ keptRows t c rank ∧
    (∀ s, isBlankStr s = true →
      replaceBlankCell (Cell.str s) = Cell.na ∧
      toNumericCell (Cell.str s) = Cell.na) ∧
    (∀ s, toNumericCell (Cell.str s) = Cell.int 0 → parseNumStr s = some 0) := by
  have hcell : getCell (setCol c.col toNumericCell r) c.col = Cell.na := by
    rw [getCell_setCol_self]
    unfold getCell at hnn
    cases hl : r.lookup c.col with
    | none => simp [hl]
    | some v =>
      rw [hl, Option.getD_some] at hnn
      simp [hl, hnn]
  have hdrop : setCol c.col toNumericCell r ∉ afterDrop t c := by
    intro hmem
    unfold afterDrop at hmem
    rw [List.mem_filter] at hmem
    rw [hcell] at hmem
    exact Bool.noConfusion hmem.2
  refine ⟨?_, hdrop, ?_, ?_, ?_⟩
  · intro r1 h1
    unfold afterDrop at h1
    rw [List.mem_filter] at h1
    cases hc1 : getCell r1 c.col with
    | int v => exact ⟨v, rfl⟩
    | na => rw [hc1] at h1; exact Bool.noConfusion h1.2
    | str s => rw [hc1] at h1; exact Bool.noConfusion h1.2
  · intro hmem
    unfold keptRows at hmem
    rw [List.mem_filter] at hmem
    exact hdrop hmem.1
  · intro s hs
    constructor
    · simp [replaceBlankCell, isBlankStr] at hs ⊢
      intro x hx
      exact hs x hx
    · have hstrip : (pyStrip s).toList = [] := by
        unfold pyStrip
        rw [show (String.mk ((((s.toList.dropWhile Char.isWhitespace).reverse.dropWhile
              Char.isWhitespace).reverse))).toList =
            (((s.toList.dropWhile Char.isWhitespace).reverse.dropWhile
              Char.isWhitespace).reverse) from rfl]
        have h1 : s.toList.dropWhile Char.isWhitespace = [] := by
          rw [List.dropWhile_eq_nil_iff]
          intro x hx
          simp [isBlankStr] at hs
          exact hs x hx
        rw [h1]
        simp
      have hpn : parseNumStr s = none := by
        unfold parseNumStr
        rw [hstrip]
      simp only [toNumericCell]
      rw [hpn]
  · intro s htn
    simp only [toNumericCell] at htn
    cases hp : parseNumStr s with
    | none => rw [hp] at htn; exact absurd htn (by simp)
    | some n =>
      rw [hp] at htn
      simp only [Cell.int.injEq] at htn
      rw [htn]

/-- C3 witness: the whitespace-cell row of institution A2. -/
theorem C3_blank_never_matches_witness :
    (∀ r1 ∈ afterDrop sampleTable sampleCrit,
      ∃ v : Int, getCell r1 sampleCrit.col = .int v) ∧
    setCol sampleCrit.col toNumericCell sampleBlankRow ∉
      afterDrop sampleTable sampleCrit ∧
    setCol sampleCrit.col toNumericCell sampleBlankRow ∉
      keptRows sampleTable sampleCrit 30000 ∧
    (∀ s, isBlankStr s = true →
      replaceBlankCell (Cell.str s) = Cell.na ∧
      toNumericCell (Cell.str s) = Cell.na) ∧
    (∀ s, toNumericCell (Cell.str s) = Cell.int 0 → parseNumStr s = some 0) :=
  C3_blank_never_matches sampleTable sampleCrit 30000 sampleBlankRow (by decide)

/-- C6: the result sequence is ordered by ascending rank value — for any
two adjacent result rows the chosen column's value of the first is at
most that of the second — and every result row's sort key is the numeric
cell value itself (rank.py:189). -/
theorem C6_result_sorted_ascending (t : Table) (c : Criteria) (rank : Nat)
    (hwf : t.WF) (hcol : c.col ∈ get_rank_columns t.cols) :
    List.Chain' (fun a b => rankValue c.col a ≤ rankValue c.col b)
      (resultRows t c rank) ∧
    ∀ r ∈ resultRows t c rank,
      ∃ v : Int, getCell r c.col = .int v ∧ rankValue c.col r = v := by
  constructor
  · apply List.Pairwise.chain'
    unfold resultRows sortByRank
    haveI : IsTotal Row (rowLe c.col) := ⟨fun a b => le_total _ _⟩
    haveI : IsTrans Row (rowLe c.col) := ⟨fun _ _ _ hab hbc => le_trans hab hbc⟩
    exact List.sorted_insertionSort (rowLe c.col) _
  · intro r hr
    obtain ⟨-, -, -, v, hv, -, -⟩ := resultRows_facts hwf hcol r hr
    refine ⟨v, hv, ?_⟩
    unfold rankValue
    rw [hv]

/-- C6 witness: the sample query's result (values 10000, 25000, 60000). -/
theorem C6_result_sorted_ascending_witness :
    List.Chain' (fun a b => rankValue sampleCrit.col a ≤ rankValue sampleCrit.col b)
      (resultRows sampleTable sampleCrit 30000) ∧
    ∀ r ∈ resultRows sampleTable sampleCrit 30000,
      ∃ v : Int, getCell r sampleCrit.col = .int v ∧
        rankValue sampleCrit.col r = v :=
  C6_result_sorted_ascending sampleTable sampleCrit 30000 (by decide) (by decide)


/-- C7 counterexample: running a query DOES mutate the session's table.
rank.py:167 assigns the blank-replaced chosen column back into `df`
before `df.copy()`, so the whitespace `OC_BOYS` cell of institution A2
becomes `NaN` in the loaded table itself. -/
theorem C7_counterexample :
    (runQuery sampleTable sampleCrit).1 ≠ sampleTable := by decide

theorem replaceBlankCell_idem (x : Cell) :
    replaceBlankCell (replaceBlankCell x) = replaceBlankCell x := by
  cases x with
  | na => rfl
  | int n => rfl
  | str s =>
    by_cases hb : isBlankStr s = true
    · simp [replaceBlankCell, hb]
    · simp [replaceBlankCell, hb]

theorem setCol_id_of_fixed (col : String) (f : Cell → Cell) (r : Row)
    (h : ∀ p ∈ r, p.1 = col → f p.2 = p.2) : setCol col f r = r := by
  unfold setCol
  have hmap : r.map (fun p => if p.1 = col then (p.1, f p.2) else p) = r.map id := by
    apply List.map_congr_left
    intro p hp
    obtain ⟨k, v⟩ := p
    have hfv := h (k, v) hp
    by_cases hc : k = col
    · subst hc
      simp [hfv rfl]
    · simp [hc]
  rw [hmap, List.map_id]

/-- C7 (amended): the mutation rank.py:167 performs is confined to the
chosen rank column — running a query never changes the column list, never
changes a cell of any other column, replaces exactly the blank cells of
the chosen column with absent, and leaves the table entirely unchanged
when the rank is rejected or when the chosen column has no blank cell;
all later filtering operates on the copy. -/
theorem C7_mutation_only_blank_cells (t : Table) (c : Criteria) :
    (runQuery t c).1.cols = t.cols ∧
    (validateRank c.rankInput = none → (runQuery t c).1 = t) ∧
    (validateRank c.rankInput ≠ none →
      (runQuery t c).1.rows = t.rows.map (setCol c.col replaceBlankCell)) ∧
    (∀ r ∈ t.rows, ∀ col, col ≠ c.col →
      getCell (setCol c.col replaceBlankCell r) col = getCell r col) ∧
    ((∀ r ∈ t.rows, ∀ p ∈ r, p.1 = c.col → replaceBlankCell p.2 = p.2) →
      (runQuery t c).1 = t) := by
  have hfix : (∀ r ∈ t.rows, ∀ p ∈ r, p.1 = c.col → replaceBlankCell p.2 = p.2) →
      applyBlankReplace t c.col = t := by
    intro h
    unfold applyBlankReplace
    have hrows : t.rows.map (setCol c.col replaceBlankCell) = t.rows.map id := by
      apply List.map_congr_left
      intro r hr
      exact setCol_id_of_fixed c.col replaceBlankCell r (h r hr)
    rw [hrows, List.map_id]
  cases hv : validateRank c.rankInput with
  | none =>
    refine ⟨?_, ?_, ?_, ?_, ?_⟩
    · simp [runQuery, hv]
    · intro _; simp [runQuery, hv]
    · intro h; exact absurd rfl h
    · intro r _ col hne
      exact getCell_setCol_ne _ _ _ _ hne
    · intro _; simp [runQuery, hv]
  | some rank =>
    refine ⟨?_, ?_, ?_, ?_, ?_⟩
    · simp [runQuery, hv, applyBlankReplace]
    · intro h
      exact Option.noConfusion h
    · intro _
      simp [runQuery, hv, applyBlankReplace]
    · intro r _ col hne
      exact getCell_setCol_ne _ _ _ _ hne
    · intro h
      simp only [runQuery, hv]
      exact hfix h

/-- C7 witness: on a table whose chosen column holds no blank string,
the query leaves the table unchanged. -/
theorem C7_mutation_only_blank_cells_witness :
    (runQuery cleanTable sampleCrit).1 = cleanTable :=
  (C7_mutation_only_blank_cells cleanTable sampleCrit).2.2.2.2 (by decide)

theorem setCol_setCol (col : String) (f g : Cell → Cell) (r : Row) :
    setCol col f (setCol col g r) = setCol col (fun x => f (g x)) r := by
  unfold setCol
  rw [List.map_map]
  apply List.map_congr_left
  intro p _
  by_cases h : p.1 = col <;> simp [h]

theorem applyBlankReplace_idem (t : Table) (col : String) :
    applyBlankReplace (applyBlankReplace t col) col = applyBlankReplace t col := by
  unfold applyBlankReplace
  simp only [List.map_map]
  congr 1
  apply List.map_congr_left
  intro r _
  show setCol col replaceBlankCell (setCol col replaceBlankCell r) =
    setCol col replaceBlankCell r
  rw [setCol_setCol]
  unfold setCol
  apply List.map_congr_left
  intro p _
  by_cases h : p.1 = col <;> simp [h, replaceBlankCell_idem]

theorem resultRows_blankReplace (t : Table) (c : Criteria) (rank : Nat) :
    resultRows (applyBlankReplace t c.col) c rank = resultRows t c rank := by
  unfold resultRows
  rw [applyBlankReplace_idem]
  rfl

/-- C8: running the same query twice in succession yields identical
results — the second invocation (on the table state the first one left
behind) produces the same outcome, row for row in the same order, and the
same table state (rank.py:161-189 is deterministic, and the only state it
writes is the idempotent blank-replacement of the chosen column). -/
theorem C8_query_idempotent (t : Table) (c : Criteria) :
    runQuery (runQuery t c).1 c = runQuery t c := by
  cases hv : validateRank c.rankInput with
  | none => simp [runQuery, hv]
  | some rank =>
    simp only [runQuery, hv]
    rw [applyBlankReplace_idem, resultRows_blankReplace]

/-- C9: with an accepted rank, an empty result set is reported as the
neutral no-matches warning — not an error — with no download offered, and
the PDF download is offered iff the result set is nonempty
(rank.py:191-203). -/
theorem C9_empty_result_handling (t : Table) (c : Criteria) (rank : Nat)
    (hrank : validateRank c.rankInput = some rank) :
    (resultRows t c rank = [] →
      (runQuery t c).2 = Outcome.noMatches ∧
      downloadOffered (runQuery t c).2 = false ∧
      errorShown (runQuery t c).2 = false) ∧
    (downloadOffered (runQuery t c).2 = true ↔ resultRows t c rank ≠ []) := by
  have h2 : (runQuery t c).2 =
      if resultRows t c rank = [] then Outcome.noMatches
      else Outcome.found (resultRows t c rank) := by
    simp [runQuery, hrank]
  constructor
  · intro he
    rw [h2, if_pos he]
    exact ⟨rfl, rfl, rfl⟩
  · rw [h2]
    by_cases he : resultRows t c rank = []
    · simp [he, downloadOffered]
    · simp [he, downloadOffered]


/-- C9 witness: restricting the sample query to a branch absent from the
table yields the empty result, reported as the neutral no-matches
outcome with no download and no error banner. -/
theorem C9_empty_result_handling_witness :
    ((runQuery sampleTable { sampleCrit with branches := ["MEC"] }).2 =
        Outcome.noMatches ∧
      downloadOffered
        (runQuery sampleTable { sampleCrit with branches := ["MEC"] }).2 = false ∧
      errorShown
        (runQuery sampleTable { sampleCrit with branches := ["MEC"] }).2 = false) ∧
    (downloadOffered
        (runQuery sampleTable { sampleCrit with branches := ["MEC"] }).2 = true ↔
      resultRows sampleTable { sampleCrit with branches := ["MEC"] } 30000 ≠ []) := by
  have h := C9_empty_result_handling sampleTable
    { sampleCrit with branches := ["MEC"] } 30000 (by decide)
  exact ⟨h.1 (by decide), h.2⟩

end RankApp
